import Mathlib

/-
Shallow embedding of `src/main.py`, a FastAPI websocket broadcast server
with a connection registry (`ConnectionManager`), a periodic broadcaster
(`notify_clients_periodically`), a graceful-shutdown coordinator
(`graceful_shutdown` / `handle_signal`) and a status endpoint (`get_status`).

Websocket connections are modelled by their identity (a `Nat`); Python list
membership / `list.remove` use object identity here, which matches `Nat`
equality.  Fallible `send_text` is an oracle `Conn → Except String Unit`.
Cooperatively scheduled coroutines are modelled as small-step machines whose
steps are the atomic regions between `await` points.
-/

abbrev Conn := Nat

/-- Registry state, `ConnectionManager` from `src/main.py` lines 54-85: the registry is the
Python list `self.active_connections` (insertion-ordered, duplicates
representable). -/
structure ConnectionManager where
  active_connections : List Conn
deriving DecidableEq

/-- Model of `ConnectionManager.connect` (lines 58-61): after `await websocket.accept()`
(assumed to succeed) the websocket is unconditionally appended. -/
def connect (w : Conn) (m : ConnectionManager) : ConnectionManager :=
  { active_connections := m.active_connections ++ [w] }

/-- Model of `ConnectionManager.disconnect` (lines 63-66): remove the first occurrence
if present, silently do nothing otherwise. -/
def disconnect (w : Conn) (m : ConnectionManager) : ConnectionManager :=
  if w ∈ m.active_connections then
    { active_connections := m.active_connections.erase w }
  else m

/-- Model of `ConnectionManager.count` (lines 84-85). -/
def count (m : ConnectionManager) : Nat :=
  m.active_connections.length

/-- Model of `ConnectionManager.is_empty` (lines 81-82). -/
def is_empty (m : ConnectionManager) : Bool :=
  count m == 0

/-- Whether the send oracle raises for connection `c` (the `except` branch of
the `try` in `broadcast`, lines 71-75). -/
def sendFails (send : Conn → Except String Unit) (c : Conn) : Bool :=
  match send c with
  | .ok _ => false
  | .error _ => true

/-- The `for connection in self.active_connections` loop of `broadcast`
(lines 69-75): each send failure is caught and the failing connection is
appended to the local `disconnected` accumulator; nothing is removed during
the pass and no exception escapes the loop. -/
def broadcastLoop (send : Conn → Except String Unit) :
    List Conn → List Conn → List Conn
  | [], disconnected => disconnected
  | c :: rest, disconnected =>
    match send c with
    | .ok _ => broadcastLoop send rest disconnected
    | .error _ => broadcastLoop send rest (disconnected ++ [c])

/-- Model of `ConnectionManager.broadcast` (lines 68-79): run the full send pass, then
remove the collected failing connections one by one via `disconnect`. -/
def broadcast (send : Conn → Except String Unit) (m : ConnectionManager) :
    ConnectionManager :=
  (broadcastLoop send m.active_connections []).foldl (fun acc c => disconnect c acc) m

/-! Trace semantics for registry operation sequences (`connect` / `disconnect`
interleaved with `broadcast`), used for the count-accounting property. -/

/-- One registry operation of a client-facing sequence: an accept
(`connect`), a disconnect, or a periodic/drain `broadcast` whose per-member
send outcomes are given by the embedded oracle. -/
inductive Op where
  | add : Conn → Op
  | remove : Conn → Op
  | bcast : (Conn → Except String Unit) → Op

/-- Effect of one operation on the registry. -/
def applyOp : Op → ConnectionManager → ConnectionManager
  | .add c, m => connect c m
  | .remove c, m => disconnect c m
  | .bcast s, m => broadcast s m

/-- Run a sequence of operations left to right. -/
def run (ops : List Op) (m : ConnectionManager) : ConnectionManager :=
  ops.foldl (fun m o => applyOp o m) m

/-- Number of `add` operations in the sequence. -/
def addsCount : List Op → Nat
  | [] => 0
  | .add _ :: r => addsCount r + 1
  | .remove _ :: r => addsCount r
  | .bcast _ :: r => addsCount r

/-- Number of effective `remove` operations along the run from `m`: a
`remove` counts only when its target is present at that point (the guard in
`disconnect`, lines 64-65). -/
def effRemoves : List Op → ConnectionManager → Nat
  | [], _ => 0
  | .add c :: r, m => effRemoves r (connect c m)
  | .remove c :: r, m =>
    (if c ∈ m.active_connections then 1 else 0) + effRemoves r (disconnect c m)
  | .bcast s :: r, m => effRemoves r (broadcast s m)

/-- Number of registry entries removed by `broadcast` send-failure cleanup
along the run from `m` (lines 77-79). -/
def bcastRemovals : List Op → ConnectionManager → Nat
  | [], _ => 0
  | .add c :: r, m => bcastRemovals r (connect c m)
  | .remove c :: r, m => bcastRemovals r (disconnect c m)
  | .bcast s :: r, m =>
    m.active_connections.countP (fun c => sendFails s c) + bcastRemovals r (broadcast s m)

/-! Small-step model of the shutdown coordinator (`handle_signal`,
lines 28-34, and `graceful_shutdown`, lines 122-140) together with the
application state it mutates (`shutdown_event`, `shutdown_requested_at`).
A spawned `graceful_shutdown` task is represented by its program counter;
steps are the atomic regions between `await` points of the coroutine.
Timestamps are abstract `Nat`s; the drain loop's two exit conditions
(deadline elapsed, registry empty) are folded into the nondeterministic
`finish` action, which is how the environment decides when the loop exits. -/

/-- Program counter of one `graceful_shutdown` task: `entry` is lines
124-128 (record `shutdown_requested_at`, broadcast the drain warning) up to
the first suspension; `polling` is the `while` loop of lines 131-138;
`finished` is after `shutdown_event.set()` on line 140. -/
inductive GsPc where
  | entry
  | polling
  | finished
deriving DecidableEq

/-- Application-level shutdown state: the `threading.Event`, the recorded
request timestamp, counters for drain-warning broadcasts and timestamp
recordings, and the spawned `graceful_shutdown` tasks. -/
structure World where
  event : Bool
  requested_at : Option Nat
  records : Nat
  drainBroadcasts : Nat
  tasks : List GsPc
deriving DecidableEq

/-- Actions of the shutdown machine: `signal t` is `handle_signal` (spawn a
`graceful_shutdown` task unless `shutdown_event.is_set()`); `gsRun i t` runs
task `i` from its entry, recording `requested_at := t` and broadcasting the
drain warning (lines 124-128); `gsSleep i` is one poll-loop iteration that
goes back to sleep; `gsFinish i` is the loop exiting (registry empty or
deadline reached) and executing `shutdown_event.set()`. -/
inductive SAct where
  | signal : Nat → SAct
  | gsRun : Nat → Nat → SAct
  | gsSleep : Nat → SAct
  | gsFinish : Nat → SAct

/-- One step of the shutdown machine. -/
def wstep : SAct → World → World
  | .signal _, w =>
    if w.event then w else { w with tasks := w.tasks ++ [GsPc.entry] }
  | .gsRun i t, w =>
    if w.tasks[i]? = some GsPc.entry then
      { w with requested_at := some t,
               records := w.records + 1,
               drainBroadcasts := w.drainBroadcasts + 1,
               tasks := w.tasks.set i GsPc.polling }
    else w
  | .gsSleep _, w => w
  | .gsFinish i, w =>
    if w.tasks[i]? = some GsPc.polling then
      { w with event := true, tasks := w.tasks.set i GsPc.finished }
    else w

/-- Run the shutdown machine over an action sequence. -/
def wrun (acts : List SAct) (w : World) : World :=
  acts.foldl (fun w a => wstep a w) w

/-- Initial application state from `lifespan` (lines 21-23): event clear,
no timestamp, no tasks. -/
def w0 : World :=
  { event := false, requested_at := none, records := 0,
    drainBroadcasts := 0, tasks := [] }

/-- Response shape of the `/status` endpoint. -/
structure Status where
  active_connections : Nat
  shutdown_requested : Bool
  shutdown_requested_at : Option Nat
deriving DecidableEq

/-- Model of `get_status` (lines 98-109): the boolean is `shutdown_event.is_set()`,
the timestamp is `shutdown_requested_at` when not `None` (a `datetime` is
always truthy), the count is read from the manager. -/
def get_status (w : World) (managerCount : Nat) : Status :=
  { active_connections := managerCount,
    shutdown_requested := w.event,
    shutdown_requested_at := w.requested_at }

/-! Small-step model of the periodic broadcaster
(`notify_clients_periodically`, lines 112-119), interleaved with the
environment setting `shutdown_event` (line 140) and changing the connection
count.  Steps are the atomic regions between `await` points of the loop. -/

/-- Program counter of the notify loop: `check` is the `while` condition of
line 114; `sleeping` is inside `await asyncio.sleep(10)`; `done` is after
the loop exits. -/
inductive NPc where
  | check
  | sleeping
  | done
deriving DecidableEq

/-- State of the notify loop plus the shared flags it reads: the loop's
program counter, the shutdown event, the registry count it will read on
line 116, and counters of broadcasts (total, and those starting after the
event was already set). -/
structure NState where
  pc : NPc
  event : Bool
  connCount : Nat
  broadcasts : Nat
  lateBroadcasts : Nat
deriving DecidableEq

/-- Actions: `loopStep` advances the notify coroutine to its next suspension
point; `setEvent` is `shutdown_event.set()` performed by the coordinator;
`setCount n` is the environment changing the registry count (connects and
disconnects of other tasks). -/
inductive NAct where
  | loopStep : NAct
  | setEvent : NAct
  | setCount : Nat → NAct

/-- One step of the notify-loop machine.  From `check`, the loop tests the
event (line 114) and either exits or enters the sleep; from `sleeping`, the
sleep returns, the count is read and a broadcast is performed when positive
(lines 115-119), returning to the check. -/
def nstep : NAct → NState → NState
  | .loopStep, s =>
    match s.pc with
    | .check => if s.event then { s with pc := .done } else { s with pc := .sleeping }
    | .sleeping =>
      if s.connCount > 0 then
        { s with pc := .check,
                 broadcasts := s.broadcasts + 1,
                 lateBroadcasts := s.lateBroadcasts + (if s.event then 1 else 0) }
      else { s with pc := .check }
    | .done => s
  | .setEvent, s => { s with event := true }
  | .setCount n, s => { s with connCount := n }

/-- Run the notify-loop machine over an action sequence. -/
def nrun (acts : List NAct) (s : NState) : NState :=
  acts.foldl (fun s a => nstep a s) s

/-- Initial notify-loop state with `k` connections: loop at its while-check,
event clear, no broadcasts yet. -/
def n0 (k : Nat) : NState :=
  { pc := .check, event := false, connCount := k, broadcasts := 0, lateBroadcasts := 0 }

/-! Small-step model of the `broadcast` send pass interleaved with registry
mutations.  The Python `for connection in self.active_connections` loop
(line 70) iterates the live list through an internal index, suspending at
each `await connection.send_text(...)`; concurrent tasks may append
(`connect`) or erase (`disconnect`) while it is suspended. -/

/-- State of an in-progress broadcast pass: the live
`active_connections` list, the iterator's index, and the members sent to so
far. -/
structure EnumSt where
  live : List Conn
  idx : Nat
  sent : List Conn
deriving DecidableEq

/-- Actions during the pass: `send` performs the next iteration of the
`for` loop (send to the element at the iterator index, then suspend);
`conn c` is a concurrent `connect` appending `c`; `disc c` is a concurrent
`disconnect` erasing `c`. -/
inductive EAct where
  | send : EAct
  | conn : Conn → EAct
  | disc : Conn → EAct

/-- One step of the interleaved broadcast pass. -/
def estep : EAct → EnumSt → EnumSt
  | .send, s =>
    match s.live[s.idx]? with
    | some c => { s with sent := s.sent ++ [c], idx := s.idx + 1 }
    | none => s
  | .conn c, s => { s with live := s.live ++ [c] }
  | .disc c, s => { s with live := s.live.erase c }

/-- Run the interleaved pass over an action sequence. -/
def erun (acts : List EAct) (s : EnumSt) : EnumSt :=
  acts.foldl (fun s a => estep a s) s

/-- A broadcast pass starting on registry contents `l`. -/
def e0 (l : List Conn) : EnumSt :=
  { live := l, idx := 0, sent := [] }

/-! Helper lemmas about the registry operations. -/

theorem disconnect_eq_erase (w : Conn) (m : ConnectionManager) :
    disconnect w m = { active_connections := m.active_connections.erase w } := by
  unfold disconnect
  by_cases h : w ∈ m.active_connections
  · simp [h]
  · simp [h, List.erase_of_not_mem h]

theorem broadcastLoop_eq_filter (send : Conn → Except String Unit)
    (l acc : List Conn) :
    broadcastLoop send l acc = acc ++ l.filter (fun c => sendFails send c) := by
  induction l generalizing acc with
  | nil => simp [broadcastLoop]
  | cons c rest ih =>
    cases h : send c with
    | ok u => simp [broadcastLoop, h, ih, List.filter_cons, sendFails]
    | error e => simp [broadcastLoop, h, ih, List.filter_cons, sendFails]

theorem foldl_disconnect_eq (D : List Conn) (m : ConnectionManager) :
    D.foldl (fun acc c => disconnect c acc) m =
      { active_connections := D.foldl (fun acc c => acc.erase c) m.active_connections } := by
  induction D generalizing m with
  | nil => rfl
  | cons c D' ih =>
    rw [List.foldl_cons, List.foldl_cons, ih, disconnect_eq_erase]

theorem foldl_erase_cons_of_ne (c : Conn) (D : List Conn)
    (h : ∀ d ∈ D, d ≠ c) (t : List Conn) :
    D.foldl (fun acc x => acc.erase x) (c :: t) =
      c :: D.foldl (fun acc x => acc.erase x) t := by
  induction D generalizing t with
  | nil => rfl
  | cons d D' ih =>
    have hdc : c ≠ d := (h d (by simp)).symm
    simp only [List.foldl_cons, List.erase_cons, beq_iff_eq, if_neg hdc]
    exact ih (fun d' hd' => h d' (by simp [hd'])) (t.erase d)

theorem foldl_erase_filter (p : Conn → Bool) (l : List Conn) :
    (l.filter p).foldl (fun acc c => acc.erase c) l = l.filter (fun c => !(p c)) := by
  induction l with
  | nil => rfl
  | cons c t ih =>
    by_cases hc : p c
    · rw [List.filter_cons_of_pos hc]
      simp only [List.foldl_cons, List.erase_cons_head]
      rw [ih, List.filter_cons_of_neg (by simp [hc])]
    · rw [List.filter_cons_of_neg (by simp [hc])]
      have hne : ∀ d ∈ t.filter p, d ≠ c := by
        intro d hd hdc
        have hp : p d = true := List.of_mem_filter hd
        rw [hdc] at hp
        exact hc hp
      rw [foldl_erase_cons_of_ne c (t.filter p) hne t, ih,
        List.filter_cons_of_pos (by simp [hc])]

theorem broadcast_eq_filter (send : Conn → Except String Unit)
    (m : ConnectionManager) :
    broadcast send m =
      { active_connections :=
          m.active_connections.filter (fun c => !(sendFails send c)) } := by
  unfold broadcast
  rw [broadcastLoop_eq_filter, List.nil_append, foldl_disconnect_eq,
    foldl_erase_filter]

theorem length_filter_not_add_countP (p : Conn → Bool) (l : List Conn) :
    (l.filter (fun c => !(p c))).length + l.countP p = l.length := by
  induction l with
  | nil => rfl
  | cons c t ih =>
    by_cases hc : p c <;>
      simp [List.filter_cons, List.countP_cons, hc] <;> omega

theorem run_cons (o : Op) (r : List Op) (m : ConnectionManager) :
    run (o :: r) m = run r (applyOp o m) := rfl

/-! The claims. -/

/-- C10: `connect` never raises a duplicate error — it is total and
unconditionally appends the websocket at the end of `active_connections`,
increasing `count()` by exactly one; connecting the same websocket twice
therefore leaves it present twice. -/
theorem connect_appends_and_counts (w : Conn) (m : ConnectionManager) :
    (connect w m).active_connections = m.active_connections ++ [w] ∧
    count (connect w m) = count m + 1 ∧
    (connect w (connect w m)).active_connections.count w =
      m.active_connections.count w + 2 := by
  refine ⟨rfl, ?_, ?_⟩
  · simp [connect, count]
  · simp [connect, List.count_append]

/-- C3 counterexample: `connect` on a registry already holding identity `0`
does not fail with a `DuplicateError` — the code has no duplicate check and
inserts a second entry. -/
theorem connect_duplicate_no_error_ce :
    (connect 0 { active_connections := [0] }).active_connections = [0, 0] := rfl

/-- C3 (amended): `connect` of an identity already present never fails; it
appends unconditionally, so afterwards the identity occurs at least twice in
the registry. -/
theorem connect_duplicate_appends (w : Conn) (m : ConnectionManager)
    (h : w ∈ m.active_connections) :
    connect w m = { active_connections := m.active_connections ++ [w] } ∧
    2 ≤ (connect w m).active_connections.count w := by
  refine ⟨rfl, ?_⟩
  have h1 : 0 < m.active_connections.count w := List.count_pos_iff.mpr h
  simp only [connect, List.count_append]
  have h2 : List.count w [w] = 1 := by simp
  omega

/-- C3 witness for the amended theorem. -/
theorem connect_duplicate_appends_witness :
    connect 0 { active_connections := [1, 0] } =
      { active_connections := [1, 0] ++ [0] } ∧
    2 ≤ (connect 0 { active_connections := [1, 0] }).active_connections.count 0 :=
  connect_duplicate_appends 0 { active_connections := [1, 0] } (by decide)

/-- C7: `disconnect` of a websocket not present in the registry is a no-op:
the guard `if websocket in self.active_connections` fails, no error is
raised and the registry is unchanged. -/
theorem disconnect_absent_noop (w : Conn) (m : ConnectionManager)
    (h : w ∉ m.active_connections) : disconnect w m = m := by
  unfold disconnect
  rw [if_neg h]

/-- C7 witness. -/
theorem disconnect_absent_noop_witness :
    disconnect 5 { active_connections := [1, 2] } =
      { active_connections := [1, 2] } :=
  disconnect_absent_noop 5 { active_connections := [1, 2] } (by decide)

/-- C4: `broadcast` returns normally for every registry state and send
oracle (each per-client failure is caught by the `try/except` inside the
loop, so `broadcast` is a total function); the failing members are only
collected during the send pass and removed afterwards, and on return the
registry equals the prior membership minus exactly the members whose send
failed, each of which was present before the call (the collected list is a
sublist of the prior membership). -/
theorem broadcast_removes_failing_after_pass (send : Conn → Except String Unit)
    (m : ConnectionManager) :
    broadcast send m =
      { active_connections :=
          m.active_connections.filter (fun c => !(sendFails send c)) } ∧
    broadcastLoop send m.active_connections [] =
      m.active_connections.filter (fun c => sendFails send c) ∧
    List.Sublist (broadcastLoop send m.active_connections []) m.active_connections := by
  refine ⟨broadcast_eq_filter send m, ?_, ?_⟩
  · rw [broadcastLoop_eq_filter, List.nil_append]
  · rw [broadcastLoop_eq_filter, List.nil_append]
    exact List.filter_sublist m.active_connections

/-- C9: when the send oracle succeeds for every current member, `broadcast`
leaves `active_connections` completely unchanged — same members, same
multiplicities, same order. -/
theorem broadcast_all_ok_frame (send : Conn → Except String Unit)
    (m : ConnectionManager)
    (h : ∀ c ∈ m.active_connections, sendFails send c = false) :
    broadcast send m = m := by
  rw [broadcast_eq_filter]
  have hf : m.active_connections.filter (fun c => !(sendFails send c)) =
      m.active_connections := by
    apply List.filter_eq_self.mpr
    intro a ha
    simp [h a ha]
  rw [hf]

/-- C9 witness. -/
theorem broadcast_all_ok_frame_witness :
    broadcast (fun _ => Except.ok ()) { active_connections := [1, 2] } =
      { active_connections := [1, 2] } :=
  broadcast_all_ok_frame (fun _ => Except.ok ())
    { active_connections := [1, 2] } (by decide)

/-- Concrete sequence refuting the C6 accounting: one accept, then a
broadcast during which that client's send fails and the cleanup removes it. -/
def c6ops : List Op :=
  [Op.add 0, Op.bcast (fun _ => Except.error ("connection closed"))]

/-- C6 counterexample: after `[add 0, broadcast]` with the send to client
`0` failing, `count()` is `0`, but adds minus effective removes is `1`:
broadcast-triggered send-failure cleanup also shrinks the registry, which
the stated accounting does not allow for. -/
theorem count_accounting_ce :
    count (run c6ops { active_connections := [] }) ≠
      addsCount c6ops - effRemoves c6ops { active_connections := [] } := by
  intro h
  have h0 : count (run c6ops { active_connections := [] }) = 0 := rfl
  have h1 : addsCount c6ops - effRemoves c6ops { active_connections := [] } = 1 := rfl
  rw [h0, h1] at h
  exact Nat.zero_ne_one h

/-- C6 (amended): for every sequence of `add`/`remove` interleaved with
`broadcast` and every starting registry, the final `count()` plus the
effective removes plus the members removed by broadcast send-failure
cleanup equals the starting count plus the number of adds; in particular,
when no send fails during any broadcast of the sequence the claim's
original identity holds. -/
theorem count_accounting_with_bcast_removals (ops : List Op)
    (m : ConnectionManager) :
    count (run ops m) + effRemoves ops m + bcastRemovals ops m =
      count m + addsCount ops := by
  induction ops generalizing m with
  | nil => simp [run, effRemoves, bcastRemovals, addsCount]
  | cons o r ih =>
    cases o with
    | add c =>
      rw [run_cons]
      simp only [applyOp, effRemoves, bcastRemovals, addsCount]
      have hih := ih (connect c m)
      have hc : count (connect c m) = count m + 1 := by
        simp [connect, count]
      omega
    | remove c =>
      rw [run_cons]
      simp only [applyOp, effRemoves, bcastRemovals, addsCount]
      have hih := ih (disconnect c m)
      by_cases hmem : c ∈ m.active_connections
      · have hlen : count (disconnect c m) = count m - 1 := by
          simp [disconnect, hmem, count, List.length_erase_of_mem hmem]
        have hpos : 0 < count m := List.length_pos_of_mem hmem
        rw [if_pos hmem]
        omega
      · have hd : disconnect c m = m := by
          unfold disconnect
          rw [if_neg hmem]
        rw [if_neg hmem, hd]
        rw [hd] at hih
        omega
    | bcast s =>
      rw [run_cons]
      simp only [applyOp, effRemoves, bcastRemovals, addsCount]
      have hih := ih (broadcast s m)
      have hb : count (broadcast s m) +
          m.active_connections.countP (fun c => sendFails s c) = count m := by
        rw [broadcast_eq_filter]
        exact length_filter_not_add_countP _ _
      omega

/-- Concrete action sequence for C1: a first termination signal spawns a
`graceful_shutdown` task which records the timestamp and broadcasts the
drain warning; while that task is still polling (the event is not yet set),
a second signal passes the `handle_signal` guard and spawns a second task,
which records and broadcasts again. -/
def c1acts : List SAct :=
  [SAct.signal 0, SAct.gsRun 0 1, SAct.signal 0, SAct.gsRun 1 2]

/-- C1: evaluating the shutdown machine at the failing input — two signals,
the second arriving during the drain window — shows two drain-warning
broadcasts, two recordings of `shutdown_requested_at` (the second
overwriting the first and thereby resetting the deadline), with the event
still clear; the claim requires exactly one broadcast and one recording. -/
theorem graceful_shutdown_double_signal_rebroadcasts :
    (wrun c1acts w0).drainBroadcasts = 2 ∧
    (wrun c1acts w0).records = 2 ∧
    (wrun c1acts w0).requested_at = some 2 ∧
    (wrun c1acts w0).event = false := by decide

/-- Concrete action sequence for C2: one signal, whose `graceful_shutdown`
task has recorded the timestamp and broadcast the warning but is still in
its polling loop, so `shutdown_event` is not yet set. -/
def c2acts : List SAct :=
  [SAct.signal 3, SAct.gsRun 0 5]

/-- C2: evaluating `get_status` at the failing input — a status query while
the coordinator is draining — shows `shutdown_requested = false` while the
shutdown-request timestamp is already present: the boolean tracks
`shutdown_event`, set only on drain completion, so the two fields disagree
in this reachable state, contrary to the claim. -/
theorem get_status_draining_disagreement :
    (get_status (wrun c2acts w0) 1).shutdown_requested = false ∧
    (get_status (wrun c2acts w0) 1).shutdown_requested_at = some 5 ∧
    (get_status (wrun c2acts w0) 1).shutdown_requested ≠
      ((get_status (wrun c2acts w0) 1).shutdown_requested_at).isSome := by decide

/-- Concrete action sequence for C5: with one client connected, the notify
loop passes its while-check and enters its 10-second sleep; the coordinator
sets `shutdown_event` during that sleep; the loop then wakes and, seeing a
positive count, broadcasts. -/
def c5acts : List NAct := [NAct.loopStep, NAct.setEvent, NAct.loopStep]

/-- C5 counterexample: a periodic notification broadcast starts after
`shutdown_event` is set, because `notify_clients_periodically` tests the
event before its sleep, not after; the claim says no broadcast ever starts
after Complete. -/
theorem notify_broadcast_after_complete_ce :
    (nrun c5acts (n0 1)).lateBroadcasts = 1 ∧
    (nrun c5acts (n0 1)).lateBroadcasts ≠ 0 := by decide

/-- Invariant of the notify-loop machine: at most one broadcast ever starts
after the event is set, none before the event is set, and a sleep in
progress while the event is set can only be the first such. -/
def notifyInv (s : NState) : Prop :=
  s.lateBroadcasts ≤ 1 ∧
  (s.event = false → s.lateBroadcasts = 0) ∧
  (s.event = true → s.pc = NPc.sleeping → s.lateBroadcasts = 0)

theorem nstep_preserves_notifyInv (a : NAct) (s : NState)
    (h : notifyInv s) : notifyInv (nstep a s) := by
  obtain ⟨pc, ev, cc, b, lb⟩ := s
  obtain ⟨h1, h2, h3⟩ := h
  simp only [notifyInv] at *
  cases a with
  | loopStep =>
    cases pc <;> cases ev <;> by_cases hcc : cc > 0 <;>
      simp_all [nstep]
  | setEvent =>
    cases ev <;> simp_all [nstep]
  | setCount n =>
    cases ev <;> simp_all [nstep]

theorem nrun_preserves_notifyInv (acts : List NAct) (s : NState)
    (h : notifyInv s) : notifyInv (nrun acts s) := by
  induction acts generalizing s with
  | nil => exact h
  | cons a l ih => exact ih (nstep a s) (nstep_preserves_notifyInv a s h)

/-- C5 (amended): once `shutdown_event` is set, the periodic broadcaster
performs at most one further broadcast — the iteration whose sleep was in
progress when the event was set — and exits at its next while-check; in
every run of the notify-loop machine at most one broadcast starts after the
event is set. -/
theorem notify_late_broadcast_at_most_one (acts : List NAct) (k : Nat) :
    (nrun acts (n0 k)).lateBroadcasts ≤ 1 := by
  have hinv : notifyInv (n0 k) :=
    ⟨Nat.zero_le 1, fun _ => rfl, fun he _ => by cases he⟩
  exact (nrun_preserves_notifyInv acts (n0 k) hinv).1

/-- Concrete action sequence for C8: the pass sends to the single initial
member and suspends; a concurrent `connect` appends `7` during that
suspension; the resumed iteration then sends to `7` as well. -/
def c8acts : List EAct := [EAct.send, EAct.conn 7, EAct.send]

/-- C8 counterexample: `broadcast` iterates the live
`active_connections` list with no lock and no point-in-time copy, so its
enumeration observes a member added after the pass started: starting from
registry `[3]`, the pass sends to `[3, 7]` although `7` was not a member
when the enumeration began. -/
theorem broadcast_enum_observes_add_ce :
    (erun c8acts (e0 [3])).sent = [3, 7] ∧
    7 ∈ (erun c8acts (e0 [3])).sent ∧ ¬ 7 ∈ (e0 [3]).live := by decide

theorem erun_send_drop (k : Nat) :
    ∀ s : EnumSt, s.idx + k = s.live.length →
      erun (List.replicate k EAct.send) s =
        { live := s.live, idx := s.live.length, sent := s.sent ++ s.live.drop s.idx } := by
  induction k with
  | zero =>
    intro s h
    obtain ⟨live, idx, sent⟩ := s
    simp only at h
    have hidx : idx = live.length := by omega
    simp [erun, hidx, List.drop_length]
  | succ k ih =>
    intro s h
    obtain ⟨live, idx, sent⟩ := s
    simp only at h
    have hlt : idx < live.length := by omega
    have hcons : erun (List.replicate (k + 1) EAct.send) ⟨live, idx, sent⟩ =
        erun (List.replicate k EAct.send)
          (estep EAct.send ⟨live, idx, sent⟩) := by
      rw [List.replicate_succ]
      rfl
    have hstep : estep EAct.send (⟨live, idx, sent⟩ : EnumSt) =
        ⟨live, idx + 1, sent ++ [live[idx]]⟩ := by
      simp [estep, List.getElem?_eq_getElem hlt]
    rw [hcons, hstep, ih ⟨live, idx + 1, sent ++ [live[idx]]⟩ (by simp; omega)]
    simp only
    rw [List.append_assoc]
    have hdrop : List.drop idx live = live[idx] :: List.drop (idx + 1) live :=
      (List.getElem_cons_drop live idx hlt).symm
    rw [hdrop]
    rfl

/-- C8 (amended): the registry operations themselves run atomically between
`await` points, but `broadcast` iterates the live list with a suspension at
every send, so its enumeration can observe adds and removes occurring
during the pass (see the counterexample); the snapshot property holds only
for a quiescent pass: with no interleaved mutation, the pass sends to
exactly the members present at the start, in order, and leaves the list
unchanged. -/
theorem broadcast_enum_quiescent_snapshot (l : List Conn) :
    erun (List.replicate l.length EAct.send) (e0 l) =
      { live := l, idx := l.length, sent := l } := by
  have h := erun_send_drop l.length (e0 l) (by simp [e0])
  simpa [e0] using h
